import Mathlib

/-
Verification of the SAAS generator pipeline (generator/main.py).

The pipeline discovers candidate bundle archives, validates them as zip
files, extracts one metadata record and an icon per valid archive,
classifies failing bundles into error buckets, and folds the records into
a search index via a field-mapping table.

Shallow embedding notes:
  - An archive is modelled by its member list; for a descriptor member we
    attach the raw record that reading, decoding and parsing its bytes
    produces (the parsing helper StrListToDictionary lives in an external
    module; the record attached to the member stands for its output).
  - The per-bundle side effects of extractInfoAndIconFromBundles (list
    appends, icon writes, archive copies) are modelled as an event trace
    in source order; run state is the fold of the trace.
  - json.dumps of the record list followed by json.loads (generateInfoJson
    feeding generateIndex) round-trips string-keyed records exactly and is
    modelled as the identity on the record list.
  - sys.exit(1) with a printed diagnostic is modelled as Except.error.
-/

namespace Saas

/-- A raw metadata record: the key to value mapping the external descriptor
parsing helper returns for the decoded text of an activity.info member. -/
abbrev RawRecord := List (String × String)

/-- dict.get on a raw record: value of the key, none when the key is absent. -/
def rawGet : RawRecord → String → Option String
  | [], _ => none
  | p :: rest, k => if p.1 = k then some p.2 else rawGet rest k

/-- One member of a zip archive: its member path and, when the member is a
descriptor, the raw record parsed from its content (unused otherwise). -/
structure ZipEntry where
  path : String
  record : RawRecord
  deriving DecidableEq

/-- A zip archive: its filesystem path and its members, mirroring the
accesses the generator performs on zipfile.ZipFile (namelist, read). -/
structure Archive where
  path : String
  entries : List ZipEntry
  deriving DecidableEq

/-- zipfile.ZipFile.namelist: the member paths in archive order. -/
def Archive.namelist (arc : Archive) : List String :=
  arc.entries.map (fun e => e.path)

/-- extractActivityInfo: read the named member and parse its decoded text
into a record (zipFile.read, utf-8 decode, StrListToDictionary). -/
def Archive.recordAt (arc : Archive) (member : String) : RawRecord :=
  match arc.entries.find? (fun e => e.path == member) with
  | some e => e.record
  | none => []

/-- Python str.endswith, computed on the character lists. -/
def strEndsWith (s suffix : String) : Bool :=
  suffix.data.isSuffixOf s.data

/-- findInfoFiles: the member paths ending with "activity/activity.info". -/
def findInfoFiles (arc : Archive) : List String :=
  arc.namelist.filter (fun f => strEndsWith f "activity/activity.info")

/-- The Python slice infoFile[:infoFile.rfind("/") + 1]: everything up to
and including the last slash, empty when the string has no slash. -/
def takeThroughLastSlash (s : String) : String :=
  String.mk ((s.data.reverse.dropWhile (fun c => c != '/')).reverse)

/-- One observable side effect of per-bundle processing, in source order:
an append to an accumulator list, an icon file write, or an archive copy. -/
inductive Event where
  | appendNotExactlyOne (path : String)
  | appendRecord (record : RawRecord)
  | writeIcon (iconPath : String)
  | appendIconError (path : String)
  | copyBundle (source : String) (destination : String)
  deriving DecidableEq

/-- Whether an event is the archive copy performed by copyBundle. -/
def Event.isCopyEvent : Event → Bool
  | Event.copyBundle _ _ => true
  | _ => false

/-- The body of the loop of extractInfoAndIconFromBundles for one bundle,
as its trace of side effects. If the archive does not hold exactly one
descriptor, the bundle path is recorded in bundlesNotExactlyOneInfoFile and
nothing else happens. Otherwise the parsed record is appended; then, only
when the record holds a "name" string and an "icon" string, the icon is
extracted (or the path recorded in iconErrorBundles when the icon member is
absent) and the archive is copied to bundles/(name).xo. -/
def processBundle (websiteDir : String) (arc : Archive) : List Event :=
  let infoFiles := findInfoFiles arc
  if infoFiles.length ≠ 1 then
    [Event.appendNotExactlyOne arc.path]
  else
    match infoFiles with
    | [] => []
    | infoFile :: _ =>
      let infoDict := arc.recordAt infoFile
      let firstEvents := [Event.appendRecord infoDict]
      match rawGet infoDict "name" with
      | none => firstEvents
      | some activityName =>
        match rawGet infoDict "icon" with
        | none => firstEvents
        | some iconRelativePath =>
          let iconFolder := takeThroughLastSlash infoFile
          let iconAbsolutePath := iconFolder ++ iconRelativePath ++ ".svg"
          let iconEvents :=
            if arc.namelist.contains iconAbsolutePath then
              [Event.writeIcon (websiteDir ++ "icons/" ++ activityName ++ ".svg")]
            else
              [Event.appendIconError arc.path]
          firstEvents ++ iconEvents ++
            [Event.copyBundle arc.path (websiteDir ++ "bundles/" ++ activityName ++ ".xo")]

/-- A discovered path: either a file that zipfile.is_zipfile rejects, or a
file that opens as a zip archive with the given members. -/
inductive DiskItem where
  | notZip (path : String)
  | zip (arc : Archive)
  deriving DecidableEq

/-- zipfile.is_zipfile as a total boolean classification. -/
def isZipfile : DiskItem → Bool
  | DiskItem.notZip _ => false
  | DiskItem.zip _ => true

/-- The filesystem path of a discovered item. -/
def DiskItem.path : DiskItem → String
  | DiskItem.notZip p => p
  | DiskItem.zip arc => arc.path

/-- The archive behind a discovered item, when it is one. -/
def DiskItem.archive : DiskItem → Option Archive
  | DiskItem.notZip _ => none
  | DiskItem.zip arc => some arc

/-- purgeBundlesNotZipFile: one pass over the discovered paths, keeping the
zip files (first component) and appending the rest to bundlesNotZipFiles
(second component), both in discovery order. -/
def purgeBundlesNotZipFile : List DiskItem → List DiskItem × List DiskItem
  | [] => ([], [])
  | b :: rest =>
    let p := purgeBundlesNotZipFile rest
    if isZipfile b then (b :: p.1, p.2) else (p.1, b :: p.2)

/-- A value held by an index dictionary: a Python str or a tuple of str. -/
inductive FieldVal where
  | str (s : String)
  | arr (xs : List String)
  deriving DecidableEq

/-- An index dictionary: insertion-ordered string keys to field values. -/
abbrev IndexDict := List (String × FieldVal)

/-- Python dict lookup on an index dictionary. -/
def dictGet : IndexDict → String → Option FieldVal
  | [], _ => none
  | p :: rest, k => if p.1 = k then some p.2 else dictGet rest k

/-- Python dict assignment on an index dictionary: replace the value at an
existing key in place, else append the new binding at the end. -/
def dictSet : IndexDict → String → FieldVal → IndexDict
  | [], k, v => [(k, v)]
  | p :: rest, k, v => if p.1 = k then (k, v) :: rest else p :: dictSet rest k v

/-- Python str.strip(" "): drop leading and trailing space characters. -/
def pyStripSpaces (s : String) : String :=
  String.mk (((s.data.dropWhile (fun c => c == ' ')).reverse.dropWhile
    (fun c => c == ' ')).reverse)

/-- A character Python str.split() treats as whitespace (ascii range). -/
def pyIsSpace (c : Char) : Bool :=
  c == ' ' || c == '\t' || c == '\n' || c == '\r' || c == '\x0b' || c == '\x0c'

/-- Split a character list at every character satisfying the predicate,
keeping empty pieces (so the empty list yields one empty piece). -/
def splitCharList (p : Char → Bool) : List Char → List (List Char)
  | [] => [[]]
  | c :: rest =>
    let r := splitCharList p rest
    if p c then [] :: r
    else
      match r with
      | [] => [[c]]
      | h :: t => (c :: h) :: t

/-- Python v.split(";"): split at every semicolon, keeping empty pieces. -/
def pySplitSemicolon (s : String) : List String :=
  (splitCharList (fun c => c == ';') s.data).map String.mk

/-- Python str.split() with no separator: split on whitespace runs,
discarding empty pieces. -/
def pySplitWhitespace (s : String) : List String :=
  ((splitCharList pyIsSpace s.data).map String.mk).filter (fun t => t ≠ "")

/-- The array-kind splitting of generateIndex: v.split(";") when v holds a
semicolon (v.find(";") >= 0), else v.split() on whitespace. -/
def arraySplit (v : String) : List String :=
  if v.data.contains ';' then pySplitSemicolon v else pySplitWhitespace v

/-- The diagnostic prelude printed by generateIndex before sys.exit(1). -/
def unexpectedInputError : String :=
  "main.py generateIndex() : expect only str, list or tuple as kwargs -> value[1] but found "

/-- The default infoToIndexMap of generateIndex, in dict insertion order:
source key, target field, target kind. -/
def stdInfoToIndexMap : List (String × String × String) :=
  [("name", "name", "string"),
   ("summary", "summary", "string"),
   ("description", "description", "string"),
   ("tag", "tags", "array"),
   ("tags", "tags", "array"),
   ("categories", "tags", "array"),
   ("category", "tags", "array")]

/-- The first loop of generateIndex over one record: initialize every target
field of the mapping table to its zero value ("" for string, () for array);
any other kind prints the diagnostic and exits, modelled as Except.error. -/
def initFields : List (String × String × String) → IndexDict →
    Except String IndexDict
  | [], d => Except.ok d
  | e :: rest, d =>
    if e.2.2 = "string" then initFields rest (dictSet d e.2.1 (FieldVal.str ""))
    else if e.2.2 = "array" then initFields rest (dictSet d e.2.1 (FieldVal.arr []))
    else Except.error (unexpectedInputError ++ e.2.2)

/-- The body of the second loop of generateIndex for one record item (k, v):
when k is a source key of the mapping table, combine v into the target
field: string kind concatenates with a separating space and strips spaces,
array kind appends the split elements; a kind mismatch between the stored
value and the declared kind is the TypeError the Python expressions would
raise, and an unknown kind is the fatal diagnostic. -/
def mergeItem (i2IMap : List (String × String × String)) (d : IndexDict)
    (kv : String × String) : Except String IndexDict :=
  match i2IMap.find? (fun e => e.1 == kv.1) with
  | none => Except.ok d
  | some e =>
    if e.2.2 = "string" then
      match dictGet d e.2.1 with
      | some (FieldVal.str cur) =>
        Except.ok (dictSet d e.2.1 (FieldVal.str (pyStripSpaces (cur ++ " " ++ kv.2))))
      | _ => Except.error "TypeError: str expected"
    else if e.2.2 = "array" then
      match dictGet d e.2.1 with
      | some (FieldVal.arr cur) =>
        Except.ok (dictSet d e.2.1 (FieldVal.arr (cur ++ arraySplit kv.2)))
      | _ => Except.error "TypeError: tuple expected"
    else Except.error (unexpectedInputError ++ e.2.2)

/-- The second loop of generateIndex over the items of one record. -/
def mergeFields (i2IMap : List (String × String × String)) :
    List (String × String) → IndexDict → Except String IndexDict
  | [], d => Except.ok d
  | kv :: rest, d =>
    match mergeItem i2IMap d kv with
    | Except.error msg => Except.error msg
    | Except.ok d2 => mergeFields i2IMap rest d2

/-- The per-record body of generateIndex: initialize the target fields,
then merge every item of the record. -/
def buildIndexDict (i2IMap : List (String × String × String)) (obj : RawRecord) :
    Except String IndexDict :=
  match initFields i2IMap [] with
  | Except.error msg => Except.error msg
  | Except.ok d0 => mergeFields i2IMap obj d0

/-- generateIndex: one index dictionary per raw record, appended in record
order; a fatal configuration diagnostic aborts the whole run. -/
def generateIndex (i2IMap : List (String × String × String)) :
    List RawRecord → Except String (List IndexDict)
  | [] => Except.ok []
  | r :: rs =>
    match buildIndexDict i2IMap r with
    | Except.error msg => Except.error msg
    | Except.ok d =>
      match generateIndex i2IMap rs with
      | Except.error msg => Except.error msg
      | Except.ok ds => Except.ok (d :: ds)

/-- The run-scoped mutable state of extractData: the four error buckets,
the raw record list, the icon writes, the archive copies and the index. -/
structure RunState where
  bundlesNotZipFiles : List String
  bundlesNotExactlyOneInfoFile : List String
  bundlesInfoList : List RawRecord
  miscErrorBundles : List String
  iconErrorBundles : List String
  iconsWritten : List String
  bundleCopies : List (String × String)
  indexDictList : List IndexDict
  deriving DecidableEq

/-- Replay one side effect of the extraction loop on the run state. -/
def applyEvent (s : RunState) : Event → RunState
  | Event.appendNotExactlyOne p =>
    { s with bundlesNotExactlyOneInfoFile := s.bundlesNotExactlyOneInfoFile ++ [p] }
  | Event.appendRecord r => { s with bundlesInfoList := s.bundlesInfoList ++ [r] }
  | Event.writeIcon p => { s with iconsWritten := s.iconsWritten ++ [p] }
  | Event.appendIconError p => { s with iconErrorBundles := s.iconErrorBundles ++ [p] }
  | Event.copyBundle src dst => { s with bundleCopies := s.bundleCopies ++ [(src, dst)] }

/-- Replay a trace of side effects on the run state. -/
def applyEvents (s : RunState) (evs : List Event) : RunState :=
  evs.foldl applyEvent s

/-- The state right after the constructor initializes the accumulators and
purgeBundlesNotZipFile has filled bundlesNotZipFiles. -/
def initialState (notZipPaths : List String) : RunState :=
  { bundlesNotZipFiles := notZipPaths
    bundlesNotExactlyOneInfoFile := []
    bundlesInfoList := []
    miscErrorBundles := []
    iconErrorBundles := []
    iconsWritten := []
    bundleCopies := []
    indexDictList := [] }

/-- The validation and extraction stages: partition the discovered items,
then replay the extraction trace of every zip archive in order. -/
def extractPhase (websiteDir : String) (items : List DiskItem) : RunState :=
  applyEvents
    (initialState (((purgeBundlesNotZipFile items).2).map DiskItem.path))
    (((((purgeBundlesNotZipFile items).1).filterMap DiskItem.archive).map
      (processBundle websiteDir)).flatten)

/-- The pipeline of the extractData constructor on already-discovered
items: purge non-zip paths, extract records and icons, then aggregate the
index (generateInfoJson followed by json.loads round-trips the record list
and is modelled as the identity). A fatal aggregator diagnostic aborts the
run before any report file is written. -/
def runPipeline (i2IMap : List (String × String × String)) (websiteDir : String)
    (items : List DiskItem) : Except String RunState :=
  match generateIndex i2IMap (extractPhase websiteDir items).bundlesInfoList with
  | Except.error msg => Except.error msg
  | Except.ok idx => Except.ok { extractPhase websiteDir items with indexDictList := idx }

/-- The four report-file writes of writeFiles, in source order: file path
and the list of lines handed to the external text writer. The info.json
and js/index.js writes serialize the record and index lists and are not
modelled here. -/
def writeFiles (websiteDir : String) (s : RunState) : List (String × List String) :=
  [(websiteDir ++ "bundlesNotExactlyOneInfoFile.txt", s.bundlesNotExactlyOneInfoFile),
   (websiteDir ++ "bundlesNotZipFiles.txt", s.bundlesNotZipFiles),
   (websiteDir ++ "miscErrorBundles.txt", s.miscErrorBundles),
   (websiteDir ++ "iconErrorBundles.txt", s.iconErrorBundles)]

/-- A valid archive with one descriptor whose record names the bundle but
has no icon key. -/
def arcNoIconKey : Archive :=
  { path := "sample.xo"
    entries := [{ path := "Sample.activity/activity/activity.info"
                  record := [("name", "Sample")] }] }

/-- A valid archive with one descriptor whose record has an empty name and
an icon that is present in the archive. -/
def arcEmptyName : Archive :=
  { path := "b2.xo"
    entries := [
      { path := "A.activity/activity/activity.info"
        record := [("name", ""), ("icon", "ic")] },
      { path := "A.activity/activity/ic.svg", record := [] }] }

/-- A valid archive with no descriptor member at all. -/
def arcNoEntries : Archive :=
  { path := "empty.xo", entries := [] }

/-- A valid archive whose record has a name and an icon key, the icon
member being absent from the archive. -/
def arcIconAbsent : Archive :=
  { path := "w1.xo"
    entries := [{ path := "Foo.activity/activity/activity.info"
                  record := [("name", "Foo"), ("icon", "ic")] }] }

/-- A valid archive with one descriptor whose record has no name key. -/
def arcNameless : Archive :=
  { path := "w2.xo"
    entries := [{ path := "B.activity/activity/activity.info"
                  record := [("summary", "x")] }] }

end Saas

namespace Saas

set_option maxRecDepth 8192

/-- Replaying one event never touches the miscellaneous bucket. -/
lemma applyEvent_misc (s : RunState) (e : Event) :
    (applyEvent s e).miscErrorBundles = s.miscErrorBundles := by
  cases e <;> rfl

/-- Replaying any trace never touches the miscellaneous bucket. -/
lemma applyEvents_misc (evs : List Event) : ∀ s : RunState,
    (applyEvents s evs).miscErrorBundles = s.miscErrorBundles := by
  induction evs with
  | nil => intro s; rfl
  | cons e rest ih =>
    intro s
    show (applyEvents (applyEvent s e) rest).miscErrorBundles = _
    rw [ih, applyEvent_misc]

/-- The purge loop computes the two filters of the classification. -/
lemma purge_eq_filters (items : List DiskItem) :
    purgeBundlesNotZipFile items =
      (items.filter isZipfile, items.filter (fun b => !isZipfile b)) := by
  induction items with
  | nil => rfl
  | cons b rest ih =>
    cases h : isZipfile b <;>
      simp [purgeBundlesNotZipFile, ih, List.filter_cons, h]

/-- C9: the Bundle Validator places each discovered path in exactly one of
the two output sets: the kept list is the zip files and the rejected list
the rest, both in input order; together they are a permutation of the
input (every input consumed exactly once); membership in each output is
characterized by the zip test, and the two outputs are disjoint; a path is
classified valid exactly when it opens as a zip archive, and the
classification is a total boolean function, so it never raises. -/
theorem purge_partitions_discovered_paths :
    ∀ items : List DiskItem,
      (purgeBundlesNotZipFile items).1 = items.filter isZipfile ∧
      (purgeBundlesNotZipFile items).2 = items.filter (fun b => !isZipfile b) ∧
      List.Perm ((purgeBundlesNotZipFile items).1 ++ (purgeBundlesNotZipFile items).2)
        items ∧
      (∀ b : DiskItem,
        (b ∈ (purgeBundlesNotZipFile items).1 ↔ b ∈ items ∧ isZipfile b = true) ∧
        (b ∈ (purgeBundlesNotZipFile items).2 ↔ b ∈ items ∧ isZipfile b = false) ∧
        ¬(b ∈ (purgeBundlesNotZipFile items).1 ∧
          b ∈ (purgeBundlesNotZipFile items).2)) ∧
      (∀ arc : Archive, isZipfile (DiskItem.zip arc) = true) ∧
      (∀ p : String, isZipfile (DiskItem.notZip p) = false) := by
  intro items
  have hp := purge_eq_filters items
  refine ⟨by rw [hp], by rw [hp], ?_, ?_, fun arc => rfl, fun p => rfl⟩
  · rw [hp]
    exact List.filter_append_perm _ items
  · intro b
    rw [hp]
    refine ⟨by simp [List.mem_filter], by simp [List.mem_filter], ?_⟩
    rintro ⟨h1, h2⟩
    rw [List.mem_filter] at h1 h2
    rw [h1.2] at h2
    simp at h2

/-- C10: the miscellaneous error bucket is never appended to by any
pipeline stage: whenever the run completes, the bucket is empty and its
report file is written from the empty list. -/
theorem miscErrorBundles_never_appended :
    ∀ (i2IMap : List (String × String × String)) (websiteDir : String)
      (items : List DiskItem) (s : RunState),
      runPipeline i2IMap websiteDir items = Except.ok s →
      s.miscErrorBundles = [] ∧
      (websiteDir ++ "miscErrorBundles.txt", ([] : List String)) ∈
        writeFiles websiteDir s := by
  intro m wd items s h
  have hs : s.miscErrorBundles = [] := by
    unfold runPipeline at h
    cases hg : generateIndex m (extractPhase wd items).bundlesInfoList with
    | error msg => rw [hg] at h; exact absurd h (by simp)
    | ok idx =>
      rw [hg] at h
      injection h with h1
      rw [← h1]
      show (extractPhase wd items).miscErrorBundles = []
      unfold extractPhase
      rw [applyEvents_misc]
      rfl
  refine ⟨hs, ?_⟩
  simp [writeFiles, hs]

/-- C10 witness: a concrete completed run with an empty bucket report. -/
theorem miscErrorBundles_never_appended_witness :
    (initialState []).miscErrorBundles = [] ∧
    ("site/" ++ "miscErrorBundles.txt", ([] : List String)) ∈
      writeFiles "site/" (initialState []) :=
  miscErrorBundles_never_appended [] "site/" [] (initialState []) rfl

/-- C4: an archive whose descriptor count is not one is recorded exactly
once in the not-exactly-one-descriptor bucket and abandoned: its whole
trace is that single bucket append, so replaying it changes the run state
only by appending the bundle path to that bucket (no record, no icon, no
copy, and hence no index entry is derived from it). -/
theorem not_exactly_one_descriptor_abandons_bundle :
    ∀ (websiteDir : String) (arc : Archive) (s : RunState),
      (findInfoFiles arc).length ≠ 1 →
      processBundle websiteDir arc = [Event.appendNotExactlyOne arc.path] ∧
      applyEvents s (processBundle websiteDir arc) =
        { s with bundlesNotExactlyOneInfoFile :=
            s.bundlesNotExactlyOneInfoFile ++ [arc.path] } := by
  intro wd arc s h
  have hp : processBundle wd arc = [Event.appendNotExactlyOne arc.path] := by
    unfold processBundle
    simp [h]
  exact ⟨hp, by rw [hp]; rfl⟩

/-- C4 witness: an archive with zero descriptors, replayed on the fresh
run state. -/
theorem not_exactly_one_descriptor_abandons_bundle_witness :
    processBundle "site/" arcNoEntries = [Event.appendNotExactlyOne arcNoEntries.path] ∧
    applyEvents (initialState []) (processBundle "site/" arcNoEntries) =
      { initialState [] with bundlesNotExactlyOneInfoFile :=
          (initialState []).bundlesNotExactlyOneInfoFile ++ [arcNoEntries.path] } :=
  not_exactly_one_descriptor_abandons_bundle "site/" arcNoEntries (initialState [])
    (by decide)

end Saas

namespace Saas

set_option maxRecDepth 8192

/-- Shape of the trace when the single record has a name string and an
icon string: record append, then one icon outcome, then the copy. -/
lemma processBundle_eq_of_name_icon (wd : String) (arc : Archive)
    (f n ic : String) (h1 : findInfoFiles arc = [f])
    (h2 : rawGet (arc.recordAt f) "name" = some n)
    (h4 : rawGet (arc.recordAt f) "icon" = some ic) :
    processBundle wd arc =
      [Event.appendRecord (arc.recordAt f)] ++
      (if arc.namelist.contains (takeThroughLastSlash f ++ ic ++ ".svg") then
        [Event.writeIcon (wd ++ "icons/" ++ n ++ ".svg")]
      else
        [Event.appendIconError arc.path]) ++
      [Event.copyBundle arc.path (wd ++ "bundles/" ++ n ++ ".xo")] := by
  unfold processBundle
  rw [h1]
  simp [h2, h4]

/-- Shape of the trace when the single record has no name key: the record
append alone. -/
lemma processBundle_eq_of_no_name (wd : String) (arc : Archive) (f : String)
    (h1 : findInfoFiles arc = [f])
    (h2 : rawGet (arc.recordAt f) "name" = none) :
    processBundle wd arc = [Event.appendRecord (arc.recordAt f)] := by
  unfold processBundle
  rw [h1]
  simp [h2]

/-- C1 as stated is false: a valid archive with exactly one descriptor,
a non-empty name, but no icon key in its record is never copied — the
copy call sits inside the branch requiring an icon string, so the trace
is the record append alone and holds no copy event. -/
theorem copy_skipped_when_icon_key_missing :
    findInfoFiles arcNoIconKey = ["Sample.activity/activity/activity.info"] ∧
    rawGet (arcNoIconKey.recordAt "Sample.activity/activity/activity.info") "name" =
      some "Sample" ∧
    ("Sample" : String) ≠ "" ∧
    processBundle "site/" arcNoIconKey = [Event.appendRecord [("name", "Sample")]] ∧
    (processBundle "site/" arcNoIconKey).all (fun e => !e.isCopyEvent) = true := by
  exact ⟨by decide, rfl, by decide, by decide, by decide⟩

/-- C1 (amended): for every valid archive with exactly one descriptor
whose record has a non-empty name AND an icon key, the archive is copied
to bundles/(name).xo as the last step for the bundle, regardless of the
icon outcome (icon found, or icon missing and recorded in the icon-missing
bucket). Without an icon key no copy is performed (see the
counterexample). -/
theorem copy_last_when_name_and_icon_present :
    ∀ (websiteDir : String) (arc : Archive) (infoFile activityName iconRel : String),
      findInfoFiles arc = [infoFile] →
      rawGet (arc.recordAt infoFile) "name" = some activityName →
      activityName ≠ "" →
      rawGet (arc.recordAt infoFile) "icon" = some iconRel →
      (processBundle websiteDir arc).getLast? =
        some (Event.copyBundle arc.path
          (websiteDir ++ "bundles/" ++ activityName ++ ".xo")) := by
  intro wd arc f n ic h1 h2 _ h4
  rw [processBundle_eq_of_name_icon wd arc f n ic h1 h2 h4]
  rw [List.getLast?_concat]

/-- C1 witness: a bundle whose icon member is absent (so the icon-missing
bucket is hit) still ends with the copy. -/
theorem copy_last_when_name_and_icon_present_witness :
    (processBundle "site/" arcIconAbsent).getLast? =
      some (Event.copyBundle arcIconAbsent.path
        ("site/" ++ "bundles/" ++ "Foo" ++ ".xo")) :=
  copy_last_when_name_and_icon_present "site/" arcIconAbsent
    "Foo.activity/activity/activity.info" "Foo" "ic" (by decide) rfl (by decide) rfl

/-- C2 as stated is false: a record whose name is the empty string is
treated like any other name string — with an icon key whose member is
present, the icon is extracted (to icons/.svg) and the archive is copied
(to bundles/.xo), while C2 claims no icon and no copy for an empty name. -/
theorem icon_and_copy_despite_empty_name :
    rawGet (arcEmptyName.recordAt "A.activity/activity/activity.info") "name" =
      some "" ∧
    processBundle "site/" arcEmptyName =
      [Event.appendRecord [("name", ""), ("icon", "ic")],
       Event.writeIcon "site/icons/.svg",
       Event.copyBundle "b2.xo" "site/bundles/.xo"] := by
  exact ⟨rfl, by decide⟩

/-- C2 (amended): for every valid archive with exactly one descriptor
whose record has NO name key, a RawInfoRecord is still appended but the
trace holds nothing else: no icon write, no icon-missing entry and no
copy. (A present-but-empty name does not behave this way; see the
counterexample.) -/
theorem record_only_when_name_missing :
    ∀ (websiteDir : String) (arc : Archive) (infoFile : String),
      findInfoFiles arc = [infoFile] →
      rawGet (arc.recordAt infoFile) "name" = none →
      processBundle websiteDir arc = [Event.appendRecord (arc.recordAt infoFile)] ∧
      (processBundle websiteDir arc).all (fun e => !e.isCopyEvent) = true := by
  intro wd arc f h1 h2
  have hp := processBundle_eq_of_no_name wd arc f h1 h2
  exact ⟨hp, by rw [hp]; rfl⟩

/-- C2 witness: a record with only a summary key yields the record append
alone. -/
theorem record_only_when_name_missing_witness :
    processBundle "site/" arcNameless =
      [Event.appendRecord (arcNameless.recordAt "B.activity/activity/activity.info")] ∧
    (processBundle "site/" arcNameless).all (fun e => !e.isCopyEvent) = true :=
  record_only_when_name_missing "site/" arcNameless
    "B.activity/activity/activity.info" (by decide) rfl

end Saas

namespace Saas

set_option maxRecDepth 8192

/-- C3: whenever generateIndex completes, it has produced exactly one
index dictionary per raw record, at the same list position: the output
length equals the input length, and the entry at every index i is the one
built from the record at index i. -/
theorem generateIndex_one_entry_per_record :
    ∀ (i2IMap : List (String × String × String)) (records : List RawRecord)
      (res : List IndexDict),
      generateIndex i2IMap records = Except.ok res →
      res.length = records.length ∧
      ∀ (i : Nat) (hr : i < records.length) (hs : i < res.length),
        buildIndexDict i2IMap (records.get ⟨i, hr⟩) = Except.ok (res.get ⟨i, hs⟩) := by
  intro m records
  induction records with
  | nil =>
    intro res h
    unfold generateIndex at h
    injection h with h1
    subst h1
    exact ⟨rfl, fun i hr _ => absurd hr (by simp)⟩
  | cons r rs ih =>
    intro res h
    unfold generateIndex at h
    cases hb : buildIndexDict m r with
    | error msg => rw [hb] at h; exact absurd h (by simp)
    | ok d =>
      rw [hb] at h
      cases hg : generateIndex m rs with
      | error msg => rw [hg] at h; exact absurd h (by simp)
      | ok ds =>
        rw [hg] at h
        injection h with h1
        subst h1
        obtain ⟨hlen, hidx⟩ := ih ds hg
        refine ⟨by simp [hlen], ?_⟩
        intro i hr hs
        cases i with
        | zero => simpa using hb
        | succ n =>
          have hr2 : n < rs.length := by simpa using hr
          have hs2 : n < ds.length := by simpa using hs
          simpa using hidx n hr2 hs2

/-- C3 witness: a one-record run, its single entry at position zero. -/
theorem generateIndex_one_entry_per_record_witness :
    buildIndexDict stdInfoToIndexMap [("name", "A")] =
      Except.ok [("name", FieldVal.str "A"), ("summary", FieldVal.str ""),
        ("description", FieldVal.str ""), ("tags", FieldVal.arr [])] :=
  (generateIndex_one_entry_per_record stdInfoToIndexMap [[("name", "A")]]
    [[("name", FieldVal.str "A"), ("summary", FieldVal.str ""),
      ("description", FieldVal.str ""), ("tags", FieldVal.arr [])]] rfl).2
    0 (by decide) (by decide)

/-- C5: under the array kind, a raw value holding a semicolon is split on
semicolons and otherwise on whitespace, the pieces being appended in order
to the existing sequence; in particular "a;b c" contributes ["a", "b c"]
and "a b c" contributes ["a", "b", "c"], also end to end through the
per-record aggregation with the standard mapping table. -/
theorem array_kind_merge_split_rule :
    (∀ (i2IMap : List (String × String × String)) (d : IndexDict)
       (kv : String × String) (e : String × String × String) (cur : List String),
      i2IMap.find? (fun x => x.1 == kv.1) = some e →
      e.2.2 = "array" →
      dictGet d e.2.1 = some (FieldVal.arr cur) →
      mergeItem i2IMap d kv = Except.ok (dictSet d e.2.1 (FieldVal.arr (cur ++
        (if kv.2.data.contains ';' then pySplitSemicolon kv.2
         else pySplitWhitespace kv.2))))) ∧
    pySplitSemicolon "a;b c" = ["a", "b c"] ∧
    pySplitWhitespace "a b c" = ["a", "b", "c"] ∧
    arraySplit "a;b c" = ["a", "b c"] ∧
    arraySplit "a b c" = ["a", "b", "c"] ∧
    buildIndexDict stdInfoToIndexMap [("tag", "a;b c")] =
      Except.ok [("name", FieldVal.str ""), ("summary", FieldVal.str ""),
        ("description", FieldVal.str ""), ("tags", FieldVal.arr ["a", "b c"])] ∧
    buildIndexDict stdInfoToIndexMap [("tags", "a b c")] =
      Except.ok [("name", FieldVal.str ""), ("summary", FieldVal.str ""),
        ("description", FieldVal.str ""), ("tags", FieldVal.arr ["a", "b", "c"])] := by
  refine ⟨?_, by decide, by decide, by decide, by decide, rfl, rfl⟩
  intro m d kv e cur hf hk hget
  unfold mergeItem
  rw [hf]
  dsimp only
  have hns : e.2.2 ≠ "string" := by rw [hk]; decide
  rw [if_neg hns, if_pos hk, hget]
  rfl

/-- C5 witness: merging the raw item (tag, "x;y") into the freshly
initialized dictionary through the standard table. -/
theorem array_kind_merge_split_rule_witness :
    mergeItem stdInfoToIndexMap
      [("name", FieldVal.str ""), ("summary", FieldVal.str ""),
       ("description", FieldVal.str ""), ("tags", FieldVal.arr [])]
      ("tag", "x;y") =
      Except.ok [("name", FieldVal.str ""), ("summary", FieldVal.str ""),
        ("description", FieldVal.str ""), ("tags", FieldVal.arr ["x", "y"])] :=
  array_kind_merge_split_rule.1 stdInfoToIndexMap
    [("name", FieldVal.str ""), ("summary", FieldVal.str ""),
     ("description", FieldVal.str ""), ("tags", FieldVal.arr [])]
    ("tag", "x;y") ("tag", "tags", "array") [] rfl rfl rfl

/-- C6: under the string kind a raw value is concatenated onto the
existing value with one separating space and the result stripped of
leading and trailing spaces; and the record
(name: Chat, summary: Talk, tag: comm;social) under the standard table
yields the entry (name: Chat, summary: Talk, description: empty,
tags: [comm, social]). -/
theorem string_kind_merge_rule :
    (∀ (i2IMap : List (String × String × String)) (d : IndexDict)
       (kv : String × String) (e : String × String × String) (cur : String),
      i2IMap.find? (fun x => x.1 == kv.1) = some e →
      e.2.2 = "string" →
      dictGet d e.2.1 = some (FieldVal.str cur) →
      mergeItem i2IMap d kv = Except.ok (dictSet d e.2.1
        (FieldVal.str (pyStripSpaces (cur ++ " " ++ kv.2))))) ∧
    buildIndexDict stdInfoToIndexMap
      [("name", "Chat"), ("summary", "Talk"), ("tag", "comm;social")] =
      Except.ok [("name", FieldVal.str "Chat"), ("summary", FieldVal.str "Talk"),
        ("description", FieldVal.str ""), ("tags", FieldVal.arr ["comm", "social"])] := by
  refine ⟨?_, rfl⟩
  intro m d kv e cur hf hk hget
  unfold mergeItem
  rw [hf]
  dsimp only
  rw [if_pos hk, hget]

/-- C6 witness: merging the raw item (name, X) into the freshly
initialized dictionary through the standard table. -/
theorem string_kind_merge_rule_witness :
    mergeItem stdInfoToIndexMap
      [("name", FieldVal.str ""), ("summary", FieldVal.str ""),
       ("description", FieldVal.str ""), ("tags", FieldVal.arr [])]
      ("name", "X") =
      Except.ok [("name", FieldVal.str "X"), ("summary", FieldVal.str ""),
        ("description", FieldVal.str ""), ("tags", FieldVal.arr [])] :=
  string_kind_merge_rule.1 stdInfoToIndexMap
    [("name", FieldVal.str ""), ("summary", FieldVal.str ""),
     ("description", FieldVal.str ""), ("tags", FieldVal.arr [])]
    ("name", "X") ("name", "name", "string") "" rfl rfl rfl

end Saas

namespace Saas

set_option maxRecDepth 8192

/-- Assigning one key leaves the lookup of any other key unchanged. -/
lemma dictGet_dictSet_ne (d : IndexDict) (k1 k2 : String) (v : FieldVal)
    (h : k1 ≠ k2) : dictGet (dictSet d k1 v) k2 = dictGet d k2 := by
  induction d with
  | nil => simp [dictGet, dictSet, h]
  | cons p rest ih =>
    by_cases hp : p.1 = k1
    · simp [dictSet, hp, dictGet, h]
    · simp [dictSet, hp, dictGet, ih]

/-- A successful merge step through a mapping table whose matching row
does not target the given field leaves that field unchanged. -/
lemma mergeItem_ok_preserves (m : List (String × String × String))
    (d d2 : IndexDict) (kv : String × String) (tf : String)
    (hok : mergeItem m d kv = Except.ok d2)
    (hne : ∀ e ∈ m, e.1 = kv.1 → e.2.1 ≠ tf) :
    dictGet d2 tf = dictGet d tf := by
  unfold mergeItem at hok
  cases hf : m.find? (fun e => e.1 == kv.1) with
  | none =>
    rw [hf] at hok
    injection hok with h1
    rw [h1]
  | some e =>
    rw [hf] at hok
    dsimp only at hok
    have he : e ∈ m := List.mem_of_find?_eq_some hf
    have heq : e.1 = kv.1 := by simpa using List.find?_some hf
    have htf : e.2.1 ≠ tf := hne e he heq
    by_cases hs : e.2.2 = "string"
    · rw [if_pos hs] at hok
      cases hget : dictGet d e.2.1 with
      | none => rw [hget] at hok; exact absurd hok (by simp)
      | some fv =>
        rw [hget] at hok
        cases fv with
        | str cur =>
          injection hok with h1
          rw [← h1]
          exact dictGet_dictSet_ne d e.2.1 tf _ htf
        | arr xs => exact absurd hok (by simp)
    · rw [if_neg hs] at hok
      by_cases ha : e.2.2 = "array"
      · rw [if_pos ha] at hok
        cases hget : dictGet d e.2.1 with
        | none => rw [hget] at hok; exact absurd hok (by simp)
        | some fv =>
          rw [hget] at hok
          cases fv with
          | arr cur =>
            injection hok with h1
            rw [← h1]
            exact dictGet_dictSet_ne d e.2.1 tf _ htf
          | str s0 => exact absurd hok (by simp)
      · rw [if_neg ha] at hok
        exact absurd hok (by simp)

/-- A successful merge pass over a record none of whose keys maps to the
given target field leaves that field unchanged. -/
lemma mergeFields_ok_preserves (m : List (String × String × String))
    (tf : String) :
    ∀ (obj : List (String × String)) (d d2 : IndexDict),
      (∀ kv ∈ obj, ∀ e ∈ m, e.1 = kv.1 → e.2.1 ≠ tf) →
      mergeFields m obj d = Except.ok d2 →
      dictGet d2 tf = dictGet d tf := by
  intro obj
  induction obj with
  | nil =>
    intro d d2 _ h
    unfold mergeFields at h
    injection h with h1
    rw [h1]
  | cons kv rest ih =>
    intro d d2 hno h
    unfold mergeFields at h
    cases hm : mergeItem m d kv with
    | error msg => rw [hm] at h; exact absurd h (by simp)
    | ok d1 =>
      rw [hm] at h
      have h1 : dictGet d1 tf = dictGet d tf :=
        mergeItem_ok_preserves m d d1 kv tf hm
          (fun e he heq => hno kv (by simp) e he heq)
      rw [ih d1 d2 (fun kv2 hkv2 => hno kv2 (by simp [hkv2])) h, h1]

/-- In the standard table, only the source key "summary" targets the
field "summary". -/
lemma std_no_summary_target (kv1 : String) (h : kv1 ≠ "summary") :
    ∀ e ∈ stdInfoToIndexMap, e.1 = kv1 → e.2.1 ≠ "summary" := by
  intro e he heq
  fin_cases he <;> simp_all

/-- C7: with the standard mapping table, every target field is first
initialized to its zero value (empty string for string kind, empty
sequence for array kind); consequently a record lacking the summary key
produces an entry whose summary field is the empty string — present, not
absent. -/
theorem index_fields_initialized_to_zero :
    initFields stdInfoToIndexMap [] =
      Except.ok [("name", FieldVal.str ""), ("summary", FieldVal.str ""),
        ("description", FieldVal.str ""), ("tags", FieldVal.arr [])] ∧
    ∀ (obj : RawRecord) (d : IndexDict),
      (∀ kv ∈ obj, kv.1 ≠ "summary") →
      buildIndexDict stdInfoToIndexMap obj = Except.ok d →
      dictGet d "summary" = some (FieldVal.str "") := by
  refine ⟨rfl, ?_⟩
  intro obj d hno hok
  have hok2 : mergeFields stdInfoToIndexMap obj
      [("name", FieldVal.str ""), ("summary", FieldVal.str ""),
       ("description", FieldVal.str ""), ("tags", FieldVal.arr [])] =
      Except.ok d := hok
  rw [mergeFields_ok_preserves stdInfoToIndexMap "summary" obj _ d
    (fun kv hkv => std_no_summary_target kv.1 (hno kv hkv)) hok2]
  rfl

/-- C7 witness: a record with only a name key still carries an empty
summary field in its entry. -/
theorem index_fields_initialized_to_zero_witness :
    dictGet [("name", FieldVal.str "A"), ("summary", FieldVal.str ""),
      ("description", FieldVal.str ""), ("tags", FieldVal.arr [])] "summary" =
      some (FieldVal.str "") :=
  index_fields_initialized_to_zero.2 [("name", "A")]
    [("name", FieldVal.str "A"), ("summary", FieldVal.str ""),
     ("description", FieldVal.str ""), ("tags", FieldVal.arr [])]
    (by decide) rfl

end Saas

namespace Saas

set_option maxRecDepth 8192

/-- The initialization loop hits any row whose kind is neither string nor
array and aborts with the diagnostic, whatever dictionary it started
from. -/
lemma initFields_error_of_bad_kind :
    ∀ (m : List (String × String × String)) (d : IndexDict),
      (∃ e ∈ m, e.2.2 ≠ "string" ∧ e.2.2 ≠ "array") →
      ∃ msg, initFields m d = Except.error msg := by
  intro m
  induction m with
  | nil =>
    intro d h
    obtain ⟨e, he, _⟩ := h
    exact absurd he (by simp)
  | cons e0 rest ih =>
    intro d h
    by_cases hs : e0.2.2 = "string"
    · obtain ⟨e, he, hbad⟩ := h
      rcases List.mem_cons.mp he with rfl | hmem
      · exact absurd hs hbad.1
      · obtain ⟨msg, hmsg⟩ := ih (dictSet d e0.2.1 (FieldVal.str "")) ⟨e, hmem, hbad⟩
        exact ⟨msg, by unfold initFields; rw [if_pos hs]; exact hmsg⟩
    · by_cases ha : e0.2.2 = "array"
      · obtain ⟨e, he, hbad⟩ := h
        rcases List.mem_cons.mp he with rfl | hmem
        · exact absurd ha hbad.2
        · obtain ⟨msg, hmsg⟩ := ih (dictSet d e0.2.1 (FieldVal.arr [])) ⟨e, hmem, hbad⟩
          exact ⟨msg, by unfold initFields; rw [if_neg hs, if_pos ha]; exact hmsg⟩
      · exact ⟨unexpectedInputError ++ e0.2.2,
          by unfold initFields; rw [if_neg hs, if_neg ha]⟩

/-- C8 as stated is false on the boundary: the unknown-kind check sits
inside the per-record loop, so a mapping table with the kind "tuple" is
silently accepted when the record list is empty — the aggregator returns
an empty index and the whole pipeline completes without any diagnostic. -/
theorem unknown_kind_silent_on_empty_run :
    generateIndex [("name", "name", "tuple")] [] = Except.ok [] ∧
    runPipeline [("name", "name", "tuple")] "site/" [] =
      Except.ok (initialState []) := by
  exact ⟨rfl, rfl⟩

/-- C8 (amended): as soon as at least one raw record exists, a mapping
table holding a kind other than string or array makes the Index
Aggregator abort the whole run with the diagnostic (modelled as
Except.error, never a per-bundle bucket entry); and on any completed run
the aggregator has left every error bucket exactly as the extraction
stages computed it, so a configuration defect is never recorded as a
per-bundle error. -/
theorem unknown_kind_fatal_with_records :
    (∀ (i2IMap : List (String × String × String)) (records : List RawRecord),
      (∃ e ∈ i2IMap, e.2.2 ≠ "string" ∧ e.2.2 ≠ "array") →
      records ≠ [] →
      ∃ msg, generateIndex i2IMap records = Except.error msg) ∧
    (∀ (i2IMap : List (String × String × String)) (websiteDir : String)
       (items : List DiskItem) (s : RunState),
      runPipeline i2IMap websiteDir items = Except.ok s →
      s.bundlesNotZipFiles = (extractPhase websiteDir items).bundlesNotZipFiles ∧
      s.bundlesNotExactlyOneInfoFile =
        (extractPhase websiteDir items).bundlesNotExactlyOneInfoFile ∧
      s.iconErrorBundles = (extractPhase websiteDir items).iconErrorBundles ∧
      s.miscErrorBundles = (extractPhase websiteDir items).miscErrorBundles) := by
  constructor
  · intro m records hbad hne
    cases records with
    | nil => exact absurd rfl hne
    | cons r rs =>
      obtain ⟨msg, hmsg⟩ := initFields_error_of_bad_kind m [] hbad
      refine ⟨msg, ?_⟩
      unfold generateIndex buildIndexDict
      rw [hmsg]
  · intro m wd items s h
    unfold runPipeline at h
    cases hg : generateIndex m (extractPhase wd items).bundlesInfoList with
    | error msg => rw [hg] at h; exact absurd h (by simp)
    | ok idx =>
      rw [hg] at h
      injection h with h1
      rw [← h1]
      exact ⟨rfl, rfl, rfl, rfl⟩

/-- C8 witness: one record plus a table with the kind "tuple" aborts. -/
theorem unknown_kind_fatal_with_records_witness :
    ∃ msg, generateIndex [("name", "name", "tuple")] [[("x", "y")]] =
      Except.error msg :=
  unknown_kind_fatal_with_records.1 [("name", "name", "tuple")] [[("x", "y")]]
    ⟨("name", "name", "tuple"), by decide, by decide, by decide⟩ (by decide)

end Saas
